import Mathlib

/-!
Shallow embedding of `src/stock_service.py` (class `StockService`): the
exchange-rate lookup with its fallback table, the stock-info resolution loop
with retries, and the trade-value calculation.

Modelling conventions:
* Python floats are modelled as exact rationals (`ℚ`).
* The provider "info blob" (a Python dict of loosely-typed values) is an
  association list `List (String × PyVal)` with unique keys.
* The external capabilities (the yfinance market-data calls and the
  `requests.get` rate lookup) are passed in as explicit outcome parameters:
  for each attempt the provider either returns data or raises, exactly the
  two behaviours the Python `try` blocks distinguish.
* A raised exception is an `Except.error` carrying `(message, exceptionKind)`.
-/

/-- Loosely-typed Python values as they occur in provider info blobs:
`None`, a number, or a string. -/
inductive PyVal where
  | pnone
  | pnum (q : ℚ)
  | pstr (s : String)
  deriving DecidableEq, Repr

/-- Python truthiness of a `PyVal`: `None`, `0` and `""` are falsy
(`if not company_name:` in the source tests exactly this). -/
def pyTruthy : PyVal → Bool
  | .pnone => false
  | .pnum q => q ≠ 0
  | .pstr s => s ≠ ""

/-- Truthiness of an optional extraction result: an absent value behaves
like Python `None`. -/
def pyTruthyOpt : Option PyVal → Bool
  | some v => pyTruthy v
  | none => false

/-- A provider info blob: a Python dict rendered as an association list
(keys unique, as in a dict). -/
abbrev Blob := List (String × PyVal)

/-- Dict membership lookup: `info[field]` when `field in info`. -/
def lookupBlob (b : Blob) (k : String) : Option PyVal :=
  (b.find? (fun p => p.1 = k)).map (fun p => p.2)

/-- The source's probe condition `field in info and info[field] is not None`:
the value of `k` when present and non-null. -/
def lookupNonNull (b : Blob) (k : String) : Option PyVal :=
  match lookupBlob b k with
  | some v => if v = .pnone then none else some v
  | none => none

/-- Python `info.get(key, default)` (a present null value is returned as
null, exactly like `dict.get`). -/
def blobGet (b : Blob) (k : String) (dflt : PyVal) : PyVal :=
  match lookupBlob b k with
  | some v => v
  | none => dflt

/-- First non-null match over a fixed field priority list, the loop
`for field in fields: if field in info and info[field] is not None: break`. -/
def firstNonNull (b : Blob) : List String → Option PyVal
  | [] => none
  | f :: rest =>
    match lookupNonNull b f with
    | some v => some v
    | none => firstNonNull b rest

/-- Outcome of one `requests.get` rate lookup: either an HTTP response with
a status code and (when the JSON body parses and carries a usable
`rates` mapping) the rate table, or a raised exception (network failure,
timeout). `rates = none` with status 200 models a malformed body: reading
it raises inside the `try`, landing in the same `except` branch. -/
inductive RateOutcome where
  | ok (status : Nat) (rates : Option (List (String × ℚ)))
  | exn (msg : String)
  deriving DecidableEq, Repr

/-- The hard-coded approximate fallback table of `get_exchange_rate`. -/
def fallback_rates : List (String × ℚ) :=
  [("HKD", 0.128), ("GBP", 1.27), ("CAD", 0.74), ("JPY", 0.0067), ("EUR", 1.09)]

/-- Python `fallback_rates.get(from_currency, 1.0)`: the table is keyed by
strings, so any non-string currency value misses and yields 1.0. -/
def fallbackRate (v : PyVal) : ℚ :=
  match v with
  | .pstr s =>
    match fallback_rates.find? (fun p => p.1 = s) with
    | some p => p.2
    | none => 1
  | _ => 1

/-- `StockService.get_exchange_rate(from_currency, to_currency='USD')`.
The currency as stored in a quote is a `PyVal` (the blob may lack it, carry
null, or carry a non-string); `from_currency == to_currency` in Python
compares that value with the string argument. On a 200 response the rate is
read from the body (default 1.0); on a non-200 response the function
returns 1.0; on any raised exception it falls back to the approximate
table. Total by construction: no failure mode raises. -/
def get_exchange_rate (outcome : RateOutcome) (from_currency : PyVal)
    (to_currency : String) : ℚ :=
  if from_currency = .pstr to_currency then 1
  else
    match outcome with
    | .ok status rates =>
      if status = 200 then
        match rates with
        | some rs =>
          match rs.find? (fun p => p.1 = to_currency) with
          | some p => p.2
          | none => 1
        | none => fallbackRate from_currency
      else 1
    | .exn _ => fallbackRate from_currency

section Parsers

/-- ASCII whitespace, the characters Python `str.strip()` removes on the
CLI domain. -/
def pyWhitespace (c : Char) : Bool :=
  c = ' ' ∨ c = '\t' ∨ c = '\n' ∨ c = '\r'

/-- Python `str.strip()`: drop leading and trailing whitespace. -/
def pyStrip (s : String) : String :=
  String.mk (((s.toList.dropWhile pyWhitespace).reverse.dropWhile pyWhitespace).reverse)

/-- Python `str.upper()` on the ASCII domain of ticker symbols. -/
def pyUpper (s : String) : String :=
  String.mk (s.toList.map Char.toUpper)

/-- Value of a list of decimal digit characters. -/
def digitsVal (cs : List Char) : Nat :=
  cs.foldl (fun acc c => acc * 10 + (c.toNat - 48)) 0

/-- Python `int(s)` on an optionally signed decimal string (the domain the
CLI feeds it): strip whitespace, optional sign, then decimal digits;
anything else raises `ValueError`, modelled as `none`. -/
def pyInt (s : String) : Option ℤ :=
  let t := pyStrip s
  match t.toList with
  | [] => none
  | c :: rest =>
    if c = '-' then
      if rest ≠ [] ∧ rest.all Char.isDigit then some (-(digitsVal rest : ℤ)) else none
    else if c = '+' then
      if rest ≠ [] ∧ rest.all Char.isDigit then some (digitsVal rest : ℤ) else none
    else if (c :: rest).all Char.isDigit then some (digitsVal (c :: rest) : ℤ)
    else none

/-- Python `float(s)` on an optionally signed decimal literal (the domain
the CLI feeds it): sign, integer digits, optional fractional part; anything
else raises `ValueError`, modelled as `none`. -/
def pyFloatParse (s : String) : Option ℚ :=
  let t := pyStrip s
  let signedBody : ℚ × List Char :=
    match t.toList with
    | '-' :: rest => (-1, rest)
    | '+' :: rest => (1, rest)
    | cs => (1, cs)
  let sign := signedBody.1
  let body := signedBody.2
  let intPart := body.takeWhile Char.isDigit
  let rest := body.dropWhile Char.isDigit
  match rest with
  | [] =>
    if intPart ≠ [] then some (sign * (digitsVal intPart : ℚ)) else none
  | '.' :: fracPart =>
    if (intPart ≠ [] ∨ fracPart ≠ []) ∧ fracPart.all Char.isDigit then
      some (sign * ((digitsVal intPart : ℚ) +
        (digitsVal fracPart : ℚ) / ((10 : ℚ) ^ fracPart.length)))
    else none
  | _ => none

end Parsers

section Formatting

/-- Round to the nearest integer, ties to even: the rounding used by
Python float formatting. -/
def pyRoundHalfEven (x : ℚ) : ℤ :=
  let f := ⌊x⌋
  if x - f < 1 / 2 then f
  else if x - f > 1 / 2 then f + 1
  else if f % 2 = 0 then f else f + 1

/-- Two-digit zero-padded rendering of a fractional cents part. -/
def twoDigits (n : Nat) : String :=
  if n < 10 then "0" ++ toString n else toString n

/-- Insert thousands separators into a digit list (most significant first),
as the `,` option of a Python format spec does. -/
def insertCommas (cs : List Char) : String :=
  String.mk ((cs.reverse.enum).foldl
    (fun acc p => if p.1 ≠ 0 ∧ p.1 % 3 = 0 then p.2 :: ',' :: acc else p.2 :: acc)
    [])

/-- Python `f"{x:.2f}"` on the exact rational value. -/
def fmtFixed2 (x : ℚ) : String :=
  let c := pyRoundHalfEven (x * 100)
  let sgn := if c < 0 then "-" else ""
  sgn ++ toString (c.natAbs / 100) ++ "." ++ twoDigits (c.natAbs % 100)

/-- Python `f"{x:,.2f}"` on the exact rational value. -/
def fmtComma2 (x : ℚ) : String :=
  let c := pyRoundHalfEven (x * 100)
  let sgn := if c < 0 then "-" else ""
  sgn ++ insertCommas (toString (c.natAbs / 100)).toList ++ "." ++ twoDigits (c.natAbs % 100)

/-- Display conversion of a blob value inside an f-string (only the string
case is exercised by real data; numbers are shown in fixed-point form). -/
def pyStrOf : PyVal → String
  | .pnone => "None"
  | .pstr s => s
  | .pnum q => fmtFixed2 q

end Formatting

section QuoteResolver

/-- Outcome of reading `stock.info` on one attempt: the blob, or a raised
exception `(message, kind)`. -/
inductive InfoOutcome where
  | ok (blob : Blob)
  | exn (msg kind : String)
  deriving DecidableEq, Repr

/-- Outcome of `stock.history(period="1d")` on one attempt: the list of
close prices (`[]` models an empty frame), or a raised exception. -/
inductive HistOutcome where
  | ok (closes : List ℚ)
  | exn (msg kind : String)
  deriving DecidableEq, Repr

/-- What the market-data provider would yield on one attempt: the info
blob outcome and, should the code ask for it, the one-day history. -/
structure Attempt where
  info : InfoOutcome
  hist : HistOutcome
  deriving DecidableEq, Repr

/-- Debug payload of the retries-exhausted failure shape. -/
structure DebugInfo where
  exceptionType : String
  attemptsMade : Nat
  lastError : String
  deriving DecidableEq, Repr

/-- Result dict of `get_stock_info`: the success shape of lines 136-144 or
a failure shape (`debug` is populated only by the retries-exhausted path). -/
inductive QuoteResult where
  | success (ticker : String) (companyName : PyVal) (currentPrice : Option ℚ)
      (currency : PyVal) (exchange : PyVal) (lastUpdated : String)
  | failure (error : String) (ticker : String) (debug : Option DebugInfo)
  deriving DecidableEq, Repr

/-- A raised Python exception: message and exception-class name. -/
abbrev PyExn := String × String

/-- Python `float(value)` on a blob value: numbers pass through, a string
raises `ValueError` (the provider's price fields are numeric; the message
models the error text), null raises `TypeError`. -/
def coerceFloat : PyVal → Except PyExn ℚ
  | .pnum q => .ok q
  | .pstr s => .error ("could not convert string to float: " ++ s, "ValueError")
  | .pnone => .error ("float argument must be a string or a real number", "TypeError")

/-- Price probe priority order of line 77. -/
def price_fields : List String :=
  ["currentPrice", "regularMarketPrice", "price", "ask", "bid"]

/-- Company-name probe priority order of line 92. -/
def name_fields : List String := ["longName", "shortName", "displayName"]

/-- Lines 76-82: first non-null price field, coerced with `float` (which
may raise). -/
def extractPriceInfo (b : Blob) : Except PyExn (Option ℚ) :=
  match firstNonNull b price_fields with
  | some v => (coerceFloat v).map some
  | none => .ok none

/-- Read the one-day history outcome, propagating a raised exception. -/
def getHistory : HistOutcome → Except PyExn (List ℚ)
  | .ok closes => .ok closes
  | .exn m k => .error (m, k)

/-- Lines 76-88: the current price from the info blob, falling back to the
most recent one-day close when no price field matched and the history is
non-empty; absent otherwise. The history is only queried when no info
field matched. -/
def resolvePrice (b : Blob) (hist : HistOutcome) : Except PyExn (Option ℚ) :=
  match extractPriceInfo b with
  | .error e => .error e
  | .ok (some q) => .ok (some q)
  | .ok none =>
    match getHistory hist with
    | .error e => .error e
    | .ok closes => .ok closes.getLast?

/-- Success shape of lines 136-144: currency defaults to `"USD"` and
exchange to `"Unknown"` via `dict.get`. -/
def mkSuccess (ticker : String) (name : PyVal) (price : Option ℚ) (b : Blob)
    (now : String) : QuoteResult :=
  .success ticker name price (blobGet b "currency" (.pstr "USD"))
    (blobGet b "exchange" (.pstr "Unknown")) now

/-- The body of one attempt of the resolution loop (lines 60-146), after
the ticker has been normalized. `notLast` is the source's
`attempt < max_retries`. Returns `ok none` for a `continue` (retry),
`ok (some r)` for a `return r`, and `error e` for a raised exception that
the outer handler catches. -/
def attemptBody (ticker now : String) (a : Attempt) (notLast : Bool) :
    Except PyExn (Option QuoteResult) :=
  match a.info with
  | .exn m k => .error (m, k)
  | .ok info =>
    if (¬ info.isEmpty ∧ info.length ≤ 2) ∧ notLast then .ok none
    else
      match resolvePrice info a.hist with
      | .error e => .error e
      | .ok price =>
        let nameVal := firstNonNull info name_fields
        if ¬ pyTruthyOpt nameVal ∧ price.isNone then
          if notLast then .ok none
          else .ok (some (.failure
            ("Invalid ticker: No company information or price data found for " ++ ticker)
            ticker none))
        else if ¬ pyTruthyOpt nameVal then
          if info.isEmpty ∨ info.length ≤ 2 then
            if notLast then .ok none
            else .ok (some (.failure
              ("Invalid ticker: " ++ ticker ++ " not found or insufficient data")
              ticker none))
          else .ok (some (mkSuccess ticker (.pstr ("Unknown (" ++ ticker ++ ")"))
            price info now))
        else .ok (some (mkSuccess ticker (nameVal.getD .pnone) price info now))

/-- The retries-exhausted failure shape of lines 157-166; `attempts_made`
is the literal `max_retries + 1`. -/
def errorDetails (ticker : String) (maxRetries : Nat) (lastErr : Option PyExn) :
    QuoteResult :=
  match lastErr with
  | some (m, k) => .failure m ticker (some ⟨k, maxRetries + 1, m⟩)
  | none => .failure "Failed to get stock information after retries" ticker
      (some ⟨"RetryExhausted", maxRetries + 1, "No specific error"⟩)

/-- The `for attempt in range(max_retries + 1)` loop, with `remaining`
attempts left, current attempt index `i`, and the captured `last_error`.
Also counts the provider queries (one `stock.info` read per attempt)
actually made. -/
def getStockInfoLoop (ticker now : String) (maxRetries : Nat)
    (provider : Nat → Attempt) :
    Nat → Nat → Option PyExn → QuoteResult × Nat
  | 0, _, lastErr => (errorDetails ticker maxRetries lastErr, 0)
  | r + 1, i, lastErr =>
    let notLast := decide (i < maxRetries)
    match attemptBody ticker now (provider i) notLast with
    | .ok (some q) => (q, 1)
    | .ok none =>
      let next := getStockInfoLoop ticker now maxRetries provider r (i + 1) lastErr
      (next.1, next.2 + 1)
    | .error e =>
      if notLast then
        let next := getStockInfoLoop ticker now maxRetries provider r (i + 1) (some e)
        (next.1, next.2 + 1)
      else (errorDetails ticker maxRetries (some e), 1)

/-- `StockService.get_stock_info(ticker, max_retries=2)`: normalizes the
ticker (`ticker.upper().strip()`, line 62) and runs the attempt loop.
Returns the result together with the number of provider queries made. -/
def get_stock_info (provider : Nat → Attempt) (ticker : String)
    (maxRetries : Nat) (now : String) : QuoteResult × Nat :=
  let t := pyStrip (pyUpper ticker)
  getStockInfoLoop t now maxRetries provider (maxRetries + 1) 0 none

end QuoteResolver

section TradeValuator

/-- The success dict built by `calculate_trade_value` (lines 203-229).
Fields present only when a max trade amount is supplied are `Option`s. -/
structure TradeValuation where
  ticker : String
  company_name : PyVal
  current_price : ℚ
  current_price_usd : ℚ
  shares : ℤ
  total_value : ℚ
  total_value_usd : ℚ
  currency : PyVal
  exchange_rate : ℚ
  formatted_price : String
  formatted_price_usd : String
  formatted_total : String
  formatted_total_usd : String
  last_updated : String
  max_trade_amount : Option ℚ
  exceeds_max : Option Bool
  formatted_max : Option String
  max_shares_allowed : Option ℤ
  deriving DecidableEq, Repr

/-- Result of `calculate_trade_value`: the valuation dict, a plain
failure dict (`success: false, error`), or the stock-info failure dict
propagated unchanged (line 185). -/
inductive CalcResult where
  | valuation (v : TradeValuation)
  | failure (error : String)
  | quoteFailure (q : QuoteResult)
  deriving DecidableEq, Repr

/-- External interactions performed during one `calculate_trade_value`
call: provider attempts made by the embedded `get_stock_info` call (each
attempt is one `stock.info` query; a history query can only happen inside
such an attempt), and invocations of `get_exchange_rate`. -/
structure CalcEffects where
  providerQueries : Nat
  rateLookups : Nat
  deriving DecidableEq, Repr

/-- Python `int(x)` on a float: truncation toward zero. -/
def pyTrunc (x : ℚ) : ℤ := if 0 ≤ x then ⌊x⌋ else ⌈x⌉

/-- `StockService.calculate_trade_value(ticker, shares, max_trade_amount)`.
`sharesStr` and the optional `maxStr` are the raw CLI strings; a parser
miss is the `ValueError` caught at line 233. Returns the result together
with the external interactions performed. When `exceeds_max` is true and
the USD price is zero, Python raises `ZeroDivisionError` at line 229,
caught by the generic handler at line 238. -/
def calculate_trade_value (provider : Nat → Attempt) (rate : RateOutcome)
    (ticker sharesStr : String) (maxStr : Option String) (now : String) :
    CalcResult × CalcEffects :=
  match pyInt sharesStr with
  | none => (.failure ("Invalid number format: invalid literal for int with base 10: "
      ++ sharesStr), ⟨0, 0⟩)
  | some n =>
    if n ≤ 0 then (.failure "Number of shares must be positive", ⟨0, 0⟩)
    else
      let si := get_stock_info provider ticker 2 now
      match si.1 with
      | .failure e t d => (.quoteFailure (.failure e t d), ⟨si.2, 0⟩)
      | .success t name priceOpt curr _exch lastUpd =>
        match priceOpt with
        | none => (.failure "Unable to fetch current stock price", ⟨si.2, 0⟩)
        | some price =>
          let totalLocal := price * (n : ℚ)
          let r := get_exchange_rate rate curr "USD"
          let priceUsd := price * r
          let totalUsd := totalLocal * r
          match maxStr with
          | none =>
            (.valuation ⟨t, name, price, priceUsd, n, totalLocal, totalUsd, curr, r,
              fmtFixed2 price ++ " " ++ pyStrOf curr, "$" ++ fmtFixed2 priceUsd,
              fmtComma2 totalLocal ++ " " ++ pyStrOf curr, "$" ++ fmtComma2 totalUsd,
              lastUpd, none, none, none, none⟩, ⟨si.2, 1⟩)
          | some ms =>
            match pyFloatParse ms with
            | none => (.failure ("Invalid number format: could not convert string to float: "
                ++ ms), ⟨si.2, 1⟩)
            | some mx =>
              let ex : Bool := totalUsd > mx
              if ex then
                if priceUsd = 0 then (.failure "float division by zero", ⟨si.2, 1⟩)
                else
                  (.valuation ⟨t, name, price, priceUsd, n, totalLocal, totalUsd, curr, r,
                    fmtFixed2 price ++ " " ++ pyStrOf curr, "$" ++ fmtFixed2 priceUsd,
                    fmtComma2 totalLocal ++ " " ++ pyStrOf curr, "$" ++ fmtComma2 totalUsd,
                    lastUpd, some mx, some true, some ("$" ++ fmtComma2 mx),
                    some (pyTrunc (mx / priceUsd))⟩, ⟨si.2, 1⟩)
              else
                (.valuation ⟨t, name, price, priceUsd, n, totalLocal, totalUsd, curr, r,
                  fmtFixed2 price ++ " " ++ pyStrOf curr, "$" ++ fmtFixed2 priceUsd,
                  fmtComma2 totalLocal ++ " " ++ pyStrOf curr, "$" ++ fmtComma2 totalUsd,
                  lastUpd, some mx, some false, some ("$" ++ fmtComma2 mx), none⟩,
                ⟨si.2, 1⟩)

end TradeValuator

section Claims

/-- C2 counterexample: the claim says that an HTTP non-success status makes
`get_exchange_rate` return the fallback-table rate for the currency, so for
HKD it would have to return 0.128. On a 500 response the code instead
returns 1.0 (the fallback table is consulted only in the `except` branch),
so the claim is false at this input. -/
theorem C2_counterexample :
    get_exchange_rate (RateOutcome.ok 500 none) (PyVal.pstr "HKD") "USD" = 1 ∧
    fallbackRate (PyVal.pstr "HKD") = 0.128 ∧ (1 : ℚ) ≠ 0.128 :=
  ⟨by with_unfolding_all rfl, by with_unfolding_all rfl, by norm_num⟩

/-- C2 (amended): for every non-USD currency, `get_exchange_rate` returns
the fixed fallback-table rate (HKD 0.128, GBP 1.27, CAD 0.74, JPY 0.0067,
EUR 1.09, and 1.0 for a currency outside the table) whenever the lookup
ends in a raised exception (network failure, timeout) or in a 200 response
whose body is malformed; on an HTTP non-success status it returns 1.0
regardless of the currency. It is total, so no failure mode raises. -/
theorem C2_exchange_rate_failure_modes (v : PyVal) (tc m : String) (st : Nat)
    (rs : Option (List (String × ℚ)))
    (hne : v ≠ PyVal.pstr tc) (hst : st ≠ 200) :
    get_exchange_rate (RateOutcome.exn m) v tc = fallbackRate v ∧
    get_exchange_rate (RateOutcome.ok 200 none) v tc = fallbackRate v ∧
    get_exchange_rate (RateOutcome.ok st rs) v tc = 1 ∧
    fallbackRate (PyVal.pstr "HKD") = 0.128 ∧
    fallbackRate (PyVal.pstr "GBP") = 1.27 ∧
    fallbackRate (PyVal.pstr "CAD") = 0.74 ∧
    fallbackRate (PyVal.pstr "JPY") = 0.0067 ∧
    fallbackRate (PyVal.pstr "EUR") = 1.09 ∧
    (∀ s, s ≠ "HKD" → s ≠ "GBP" → s ≠ "CAD" → s ≠ "JPY" → s ≠ "EUR" →
      fallbackRate (PyVal.pstr s) = 1) := by
  refine ⟨?_, ?_, ?_, by with_unfolding_all rfl, by with_unfolding_all rfl,
    by with_unfolding_all rfl, by with_unfolding_all rfl, by with_unfolding_all rfl, ?_⟩
  · simp [get_exchange_rate, hne]
  · simp [get_exchange_rate, hne]
  · simp [get_exchange_rate, hne, hst]
  · intro s h1 h2 h3 h4 h5
    simp [fallbackRate, fallback_rates, List.find?,
      Ne.symm h1, Ne.symm h2, Ne.symm h3, Ne.symm h4, Ne.symm h5]

/-- C2 witness: concrete failure modes for HKD. -/
theorem C2_exchange_rate_failure_modes_witness :
    get_exchange_rate (RateOutcome.exn "timeout") (PyVal.pstr "HKD") "USD" =
      fallbackRate (PyVal.pstr "HKD") ∧
    get_exchange_rate (RateOutcome.ok 500 (some [("USD", 2)])) (PyVal.pstr "HKD") "USD" = 1 :=
  ⟨(C2_exchange_rate_failure_modes (PyVal.pstr "HKD") "USD" "timeout" 500
      (some [("USD", 2)]) (by decide) (by decide)).1,
   (C2_exchange_rate_failure_modes (PyVal.pstr "HKD") "USD" "timeout" 500
      (some [("USD", 2)]) (by decide) (by decide)).2.2.1⟩

/-- C4: `get_stock_info` extracts the current price as the first non-null
field in the fixed order currentPrice, regularMarketPrice, price, ask, bid
(coerced to a number), and when none of these is present and non-null it
falls back to the most recent one-day historical close, leaving the price
absent when the history is empty. `resolvePrice` is the price-resolution
step used by each attempt of `get_stock_info`. -/
theorem C4_price_extraction (b : Blob) (hist : HistOutcome) (closes : List ℚ) (q : ℚ) :
    (firstNonNull b price_fields =
      ((lookupNonNull b "currentPrice").orElse fun _ =>
       ((lookupNonNull b "regularMarketPrice").orElse fun _ =>
        ((lookupNonNull b "price").orElse fun _ =>
         ((lookupNonNull b "ask").orElse fun _ =>
          lookupNonNull b "bid"))))) ∧
    (firstNonNull b price_fields = some (PyVal.pnum q) →
      resolvePrice b hist = Except.ok (some q)) ∧
    (firstNonNull b price_fields = none →
      resolvePrice b (HistOutcome.ok closes) = Except.ok closes.getLast?) := by
  refine ⟨?_, ?_, ?_⟩
  · simp only [price_fields, firstNonNull]
    cases lookupNonNull b "currentPrice" <;>
      cases lookupNonNull b "regularMarketPrice" <;>
      cases lookupNonNull b "price" <;>
      cases lookupNonNull b "ask" <;>
      cases lookupNonNull b "bid" <;> rfl
  · intro h
    simp [resolvePrice, extractPriceInfo, h, coerceFloat, Except.map]
  · intro h
    simp [resolvePrice, extractPriceInfo, h, getHistory]

/-- C4 witness: a blob whose first non-null price field is
`regularMarketPrice`, and a field-less blob falling back to the history. -/
theorem C4_price_extraction_witness :
    resolvePrice [("currentPrice", PyVal.pnone), ("regularMarketPrice", PyVal.pnum 7)]
      (HistOutcome.ok []) = Except.ok (some 7) ∧
    resolvePrice [("volume", PyVal.pnum 3)] (HistOutcome.ok [4, 5]) = Except.ok (some 5) :=
  ⟨(C4_price_extraction [("currentPrice", PyVal.pnone), ("regularMarketPrice", PyVal.pnum 7)]
      (HistOutcome.ok []) [] 7).2.1 (by decide),
   (C4_price_extraction [("volume", PyVal.pnum 3)] (HistOutcome.ok [4, 5]) [4, 5] 0).2.2
      (by decide)⟩

/-- C7: `calculate_trade_value` fails when the shares string is not
parseable as an integer, or when the parsed integer is below 1; in
particular shares "0" yields the shares-must-be-positive failure and never
a valuation. -/
theorem C7_shares_validation (provider : Nat → Attempt) (rate : RateOutcome)
    (ticker now : String) (maxStr : Option String) (sharesStr : String) :
    (pyInt sharesStr = none →
      (calculate_trade_value provider rate ticker sharesStr maxStr now).1 =
        CalcResult.failure
          ("Invalid number format: invalid literal for int with base 10: " ++ sharesStr)) ∧
    (∀ n : ℤ, pyInt sharesStr = some n → n < 1 →
      (calculate_trade_value provider rate ticker sharesStr maxStr now).1 =
        CalcResult.failure "Number of shares must be positive") ∧
    (calculate_trade_value provider rate ticker "0" maxStr now).1 =
      CalcResult.failure "Number of shares must be positive" := by
  refine ⟨?_, ?_, ?_⟩
  · intro h
    simp [calculate_trade_value, h]
  · intro n h hlt
    have hle : n ≤ 0 := by omega
    simp [calculate_trade_value, h, hle]
  · have h0 : pyInt "0" = some 0 := by decide
    simp [calculate_trade_value, h0]

/-- C7 witness: shares "0" and a non-numeric shares string, each at a
provider that would succeed. -/
theorem C7_shares_validation_witness :
    (calculate_trade_value (fun _ => ⟨InfoOutcome.ok [("currentPrice", PyVal.pnum 150)],
        HistOutcome.ok []⟩) (RateOutcome.exn "down") "AAPL" "0" none "ts").1 =
      CalcResult.failure "Number of shares must be positive" ∧
    (calculate_trade_value (fun _ => ⟨InfoOutcome.ok [("currentPrice", PyVal.pnum 150)],
        HistOutcome.ok []⟩) (RateOutcome.exn "down") "AAPL" "abc" none "ts").1 =
      CalcResult.failure
        ("Invalid number format: invalid literal for int with base 10: " ++ "abc") :=
  ⟨(C7_shares_validation (fun _ => ⟨InfoOutcome.ok [("currentPrice", PyVal.pnum 150)],
      HistOutcome.ok []⟩) (RateOutcome.exn "down") "AAPL" "ts" none "0").2.1 0
      (by decide) (by decide),
   (C7_shares_validation (fun _ => ⟨InfoOutcome.ok [("currentPrice", PyVal.pnum 150)],
      HistOutcome.ok []⟩) (RateOutcome.exn "down") "AAPL" "ts" none "abc").1 (by decide)⟩

/-- C10 (implicit): when the shares input is non-numeric or parses below 1,
`calculate_trade_value` performs no external interaction at all: zero
provider attempts (hence zero info and zero history queries, the latter
only ever happening inside an attempt) and zero exchange-rate lookups. -/
theorem C10_error_path_effect_free (provider : Nat → Attempt) (rate : RateOutcome)
    (ticker now : String) (maxStr : Option String) (sharesStr : String)
    (h : pyInt sharesStr = none ∨ ∃ n : ℤ, pyInt sharesStr = some n ∧ n < 1) :
    (calculate_trade_value provider rate ticker sharesStr maxStr now).2 =
      CalcEffects.mk 0 0 := by
  rcases h with h | ⟨n, h, hlt⟩
  · simp [calculate_trade_value, h]
  · have hle : n ≤ 0 := by omega
    simp [calculate_trade_value, h, hle]

/-- C10 witness: non-numeric shares at a provider that would succeed. -/
theorem C10_error_path_effect_free_witness :
    (calculate_trade_value (fun _ => ⟨InfoOutcome.ok [("currentPrice", PyVal.pnum 150)],
        HistOutcome.ok []⟩) (RateOutcome.exn "down") "AAPL" "abc" none "ts").2 =
      CalcEffects.mk 0 0 :=
  C10_error_path_effect_free (fun _ => ⟨InfoOutcome.ok [("currentPrice", PyVal.pnum 150)],
    HistOutcome.ok []⟩) (RateOutcome.exn "down") "AAPL" "ts" none "abc"
    (Or.inl (by decide))

section LoopLemmas

/-- A non-empty ASCII-decorated placeholder name is truthy. -/
theorem unknownName_truthy (ticker : String) :
    pyTruthy (PyVal.pstr ("Unknown (" ++ ticker ++ ")")) = true := by
  simp only [pyTruthy, ne_eq, decide_eq_true_eq]
  intro hc
  have hlen := congrArg String.length hc
  rw [String.length_append, String.length_append] at hlen
  have h1 : ("Unknown (" : String).length = 9 := rfl
  have h2 : (")" : String).length = 1 := rfl
  have h3 : ("" : String).length = 0 := rfl
  omega

/-- Any success returned by a single attempt has a truthy company name:
either a truthy extracted name field, or the non-empty placeholder. -/
theorem attemptBody_success_name (ticker now : String) (a : Attempt) (nl : Bool)
    (t : String) (n : PyVal) (p : Option ℚ) (c e : PyVal) (lu : String)
    (h : attemptBody ticker now a nl = .ok (some (.success t n p c e lu))) :
    pyTruthy n = true := by
  unfold attemptBody at h
  cases hinfo : a.info with
  | exn m k => rw [hinfo] at h; simp at h
  | ok info =>
    rw [hinfo] at h
    dsimp only at h
    by_cases h1 : (¬ info.isEmpty = true ∧ info.length ≤ 2) ∧ nl = true
    · rw [if_pos h1] at h; simp at h
    · rw [if_neg h1] at h
      cases hrp : resolvePrice info a.hist with
      | error e2 => rw [hrp] at h; simp at h
      | ok price =>
        rw [hrp] at h
        dsimp only at h
        by_cases h2 : ¬ pyTruthyOpt (firstNonNull info name_fields) = true ∧ price.isNone = true
        · rw [if_pos h2] at h
          split at h <;> simp at h
        · rw [if_neg h2] at h
          by_cases h3 : ¬ pyTruthyOpt (firstNonNull info name_fields) = true
          · rw [if_pos h3] at h
            by_cases h4 : info.isEmpty = true ∨ info.length ≤ 2
            · rw [if_pos h4] at h
              split at h <;> simp at h
            · rw [if_neg h4] at h
              simp only [mkSuccess, Except.ok.injEq, Option.some.injEq,
                QuoteResult.success.injEq] at h
              obtain ⟨-, hn, -⟩ := h
              rw [← hn]
              exact unknownName_truthy ticker
          · rw [if_neg h3] at h
            rw [not_not] at h3
            simp only [mkSuccess, Except.ok.injEq, Option.some.injEq,
              QuoteResult.success.injEq] at h
            obtain ⟨-, hn, -⟩ := h
            rw [← hn]
            cases hv : firstNonNull info name_fields with
            | none => rw [hv] at h3; simp [pyTruthyOpt] at h3
            | some v =>
              rw [hv] at h3
              simpa [pyTruthyOpt, Option.getD] using h3

/-- Any failure returned directly by a single attempt (the two
invalid-ticker shapes) carries no debug payload. -/
theorem attemptBody_failure_debug (ticker now : String) (a : Attempt) (nl : Bool)
    (e t : String) (d : Option DebugInfo)
    (h : attemptBody ticker now a nl = .ok (some (.failure e t d))) :
    d = none := by
  unfold attemptBody at h
  cases hinfo : a.info with
  | exn m k => rw [hinfo] at h; simp at h
  | ok info =>
    rw [hinfo] at h
    dsimp only at h
    by_cases h1 : (¬ info.isEmpty = true ∧ info.length ≤ 2) ∧ nl = true
    · rw [if_pos h1] at h; simp at h
    · rw [if_neg h1] at h
      cases hrp : resolvePrice info a.hist with
      | error e2 => rw [hrp] at h; simp at h
      | ok price =>
        rw [hrp] at h
        dsimp only at h
        by_cases h2 : ¬ pyTruthyOpt (firstNonNull info name_fields) = true ∧ price.isNone = true
        · rw [if_pos h2] at h
          split at h <;> simp_all
        · rw [if_neg h2] at h
          by_cases h3 : ¬ pyTruthyOpt (firstNonNull info name_fields) = true
          · rw [if_pos h3] at h
            by_cases h4 : info.isEmpty = true ∨ info.length ≤ 2
            · rw [if_pos h4] at h
              split at h <;> simp_all
            · rw [if_neg h4] at h
              simp [mkSuccess] at h
          · rw [if_neg h3] at h
            simp [mkSuccess] at h

/-- Every success produced by the resolution loop has a truthy company
name. -/
theorem getStockInfoLoop_success_name (ticker now : String) (maxR : Nat)
    (provider : Nat → Attempt) :
    ∀ (r i : Nat) (le : Option PyExn) (t : String) (n : PyVal) (p : Option ℚ)
      (c e : PyVal) (lu : String),
      (getStockInfoLoop ticker now maxR provider r i le).1 =
        QuoteResult.success t n p c e lu → pyTruthy n = true := by
  intro r
  induction r with
  | zero =>
    intro i le t n p c e lu h
    unfold getStockInfoLoop errorDetails at h
    rcases le with - | ⟨m, k⟩ <;> simp at h
  | succ r ih =>
    intro i le t n p c e lu h
    unfold getStockInfoLoop at h
    dsimp only at h
    cases hb : attemptBody ticker now (provider i) (decide (i < maxR)) with
    | ok oq =>
      cases oq with
      | some q =>
        rw [hb] at h
        dsimp only at h
        subst h
        exact attemptBody_success_name ticker now (provider i) (decide (i < maxR))
          t n p c e lu hb
      | none =>
        rw [hb] at h
        dsimp only at h
        exact ih (i + 1) le t n p c e lu h
    | error ex =>
      rw [hb] at h
      dsimp only at h
      split at h
      · exact ih (i + 1) (some ex) t n p c e lu h
      · unfold errorDetails at h
        rcases ex with ⟨m, k⟩
        simp at h

/-- The resolution loop makes at most as many provider queries as it has
attempts left. -/
theorem getStockInfoLoop_count_le (ticker now : String) (maxR : Nat)
    (provider : Nat → Attempt) :
    ∀ (r i : Nat) (le : Option PyExn),
      (getStockInfoLoop ticker now maxR provider r i le).2 ≤ r := by
  intro r
  induction r with
  | zero => intro i le; simp [getStockInfoLoop]
  | succ r ih =>
    intro i le
    unfold getStockInfoLoop
    dsimp only
    cases hb : attemptBody ticker now (provider i) (decide (i < maxR)) with
    | ok oq =>
      cases oq with
      | some q =>
        dsimp only
        omega
      | none =>
        dsimp only
        have := ih (i + 1) le
        omega
    | error ex =>
      dsimp only
      split
      · dsimp only
        have := ih (i + 1) (some ex)
        omega
      · dsimp only
        omega

/-- Every failure produced by the resolution loop that carries a debug
payload reports `attempts_made = max_retries + 1` (the literal written at
line 163 of the source). -/
theorem getStockInfoLoop_debug_attempts (ticker now : String) (maxR : Nat)
    (provider : Nat → Attempt) :
    ∀ (r i : Nat) (le : Option PyExn) (e t : String) (d : DebugInfo),
      (getStockInfoLoop ticker now maxR provider r i le).1 =
        QuoteResult.failure e t (some d) → d.attemptsMade = maxR + 1 := by
  intro r
  induction r with
  | zero =>
    intro i le e t d h
    unfold getStockInfoLoop errorDetails at h
    rcases le with - | ⟨m, k⟩ <;>
      · dsimp only at h
        rw [QuoteResult.failure.injEq, Option.some.injEq] at h
        rw [← h.2.2]
  | succ r ih =>
    intro i le e t d h
    unfold getStockInfoLoop at h
    dsimp only at h
    cases hb : attemptBody ticker now (provider i) (decide (i < maxR)) with
    | ok oq =>
      cases oq with
      | some q =>
        rw [hb] at h
        dsimp only at h
        subst h
        have := attemptBody_failure_debug ticker now (provider i) (decide (i < maxR))
          e t (some d) hb
        simp at this
      | none =>
        rw [hb] at h
        dsimp only at h
        exact ih (i + 1) le e t d h
    | error ex =>
      rw [hb] at h
      dsimp only at h
      split at h
      · exact ih (i + 1) (some ex) e t d h
      · unfold errorDetails at h
        rcases ex with ⟨m, k⟩
        dsimp only at h
        rw [QuoteResult.failure.injEq, Option.some.injEq] at h
        rw [← h.2.2]

end LoopLemmas

/-- C5: for every ticker and every maxRetries value, `get_stock_info`
queries the provider at most `maxRetries + 1` times, and any failure it
returns that carries debug info (the shape produced after a provider
exception on the final attempt) reports `attemptsMade = maxRetries + 1`. -/
theorem C5_retry_bound (provider : Nat → Attempt) (ticker now : String) (maxR : Nat) :
    (get_stock_info provider ticker maxR now).2 ≤ maxR + 1 ∧
    ∀ (e t : String) (d : DebugInfo),
      (get_stock_info provider ticker maxR now).1 = QuoteResult.failure e t (some d) →
      d.attemptsMade = maxR + 1 := by
  constructor
  · exact getStockInfoLoop_count_le (pyStrip (pyUpper ticker)) now maxR provider
      (maxR + 1) 0 none
  · intro e t d h
    exact getStockInfoLoop_debug_attempts (pyStrip (pyUpper ticker)) now maxR provider
      (maxR + 1) 0 none e t d h

/-- C5 witness: a provider that raises on every attempt, with one retry
allowed: two queries are made and the failure reports two attempts. -/
theorem C5_retry_bound_witness :
    (get_stock_info (fun _ => ⟨InfoOutcome.exn "boom" "RuntimeError", HistOutcome.ok []⟩)
        "T" 1 "ts").2 ≤ 2 ∧
    DebugInfo.attemptsMade ⟨"RuntimeError", 2, "boom"⟩ = 2 :=
  ⟨(C5_retry_bound (fun _ => ⟨InfoOutcome.exn "boom" "RuntimeError", HistOutcome.ok []⟩)
      "T" "ts" 1).1,
   (C5_retry_bound (fun _ => ⟨InfoOutcome.exn "boom" "RuntimeError", HistOutcome.ok []⟩)
      "T" "ts" 1).2 "boom" "T" ⟨"RuntimeError", 2, "boom"⟩ (by decide)⟩

/-- C6: every success returned by `get_stock_info` has at least one of the
company name or the current price populated (in fact the name is always
truthy in a success); contrapositively, when both are absent the result is
never a success. -/
theorem C6_success_at_least_one (provider : Nat → Attempt) (ticker now : String)
    (maxR : Nat) (t : String) (n : PyVal) (p : Option ℚ) (c e : PyVal) (lu : String)
    (h : (get_stock_info provider ticker maxR now).1 = QuoteResult.success t n p c e lu) :
    pyTruthy n = true ∨ p ≠ none :=
  Or.inl (getStockInfoLoop_success_name (pyStrip (pyUpper ticker)) now maxR provider
    (maxR + 1) 0 none t n p c e lu h)

/-- C6 witness: a fully populated provider blob yields a success with both
fields populated. -/
theorem C6_success_at_least_one_witness :
    pyTruthy (PyVal.pstr "Apple Inc.") = true ∨ (some (150 : ℚ)) ≠ none :=
  C6_success_at_least_one
    (fun _ => ⟨InfoOutcome.ok [("currentPrice", PyVal.pnum 150),
      ("longName", PyVal.pstr "Apple Inc."), ("currency", PyVal.pstr "USD")],
      HistOutcome.ok []⟩)
    "AAPL" "ts" 2 "AAPL" (PyVal.pstr "Apple Inc.") (some 150) (PyVal.pstr "USD")
    (PyVal.pstr "Unknown") "ts" (by decide)

/-- C9 (implicit): every success returned by `get_stock_info` has a
non-null company name which, when it is a string, is non-empty: when no
name field is extracted the placeholder "Unknown (<ticker>)" is
substituted, so a success never carries an absent name. -/
theorem C9_success_name_nonempty (provider : Nat → Attempt) (ticker now : String)
    (maxR : Nat) (t : String) (n : PyVal) (p : Option ℚ) (c e : PyVal) (lu : String)
    (h : (get_stock_info provider ticker maxR now).1 = QuoteResult.success t n p c e lu) :
    n ≠ PyVal.pnone ∧ ∀ s, n = PyVal.pstr s → s ≠ "" := by
  have ht := getStockInfoLoop_success_name (pyStrip (pyUpper ticker)) now maxR provider
    (maxR + 1) 0 none t n p c e lu h
  constructor
  · intro hc
    rw [hc] at ht
    simp [pyTruthy] at ht
  · intro s hs
    rw [hs] at ht
    simpa [pyTruthy] using ht

/-- C9 witness: a blob with price data but no name field (and more than
two keys) resolves to a success carrying the placeholder name. -/
theorem C9_success_name_nonempty_witness :
    PyVal.pstr "Unknown (MSFT)" ≠ PyVal.pnone ∧ ("Unknown (MSFT)" : String) ≠ "" :=
  ⟨(C9_success_name_nonempty
      (fun _ => ⟨InfoOutcome.ok [("currentPrice", PyVal.pnum 3),
        ("volume", PyVal.pnum 9), ("exchange", PyVal.pstr "NYSE")], HistOutcome.ok []⟩)
      "MSFT" "ts" 2 "MSFT" (PyVal.pstr "Unknown (MSFT)") (some 3)
      (PyVal.pstr "USD") (PyVal.pstr "NYSE") "ts" (by decide)).1,
   (C9_success_name_nonempty
      (fun _ => ⟨InfoOutcome.ok [("currentPrice", PyVal.pnum 3),
        ("volume", PyVal.pnum 9), ("exchange", PyVal.pstr "NYSE")], HistOutcome.ok []⟩)
      "MSFT" "ts" 2 "MSFT" (PyVal.pstr "Unknown (MSFT)") (some 3)
      (PyVal.pstr "USD") (PyVal.pstr "NYSE") "ts" (by decide)).2
     "Unknown (MSFT)" rfl⟩

section ThinBlob

/-- One non-final attempt on a blob with at most two keys, no truthy name
field and an extracted price (from an info field or from the one-day
history) retries: a non-empty blob retries at the line-71 heuristic, an
empty blob at the line-121 insufficient-data check. -/
theorem attemptBody_thin_retry (ticker now : String) (b : Blob) (hist : HistOutcome)
    (q : ℚ)
    (hlen : b.length ≤ 2)
    (hname : pyTruthyOpt (firstNonNull b name_fields) = false)
    (hprice : resolvePrice b hist = Except.ok (some q)) :
    attemptBody ticker now ⟨InfoOutcome.ok b, hist⟩ true = Except.ok none := by
  cases b with
  | nil => simp [attemptBody, hprice, hname]
  | cons x xs =>
    have hxs : xs.length ≤ 1 := by
      simpa using hlen
    simp [attemptBody, hxs]

/-- The final attempt on a blob (empty or not) with at most two keys, no
truthy name field and an extracted price (from an info field or from the
one-day history) returns the insufficient-data invalid-ticker failure of
lines 125-129. -/
theorem attemptBody_thin_final (ticker now : String) (b : Blob) (hist : HistOutcome)
    (q : ℚ)
    (hlen : b.length ≤ 2)
    (hname : pyTruthyOpt (firstNonNull b name_fields) = false)
    (hprice : resolvePrice b hist = Except.ok (some q)) :
    attemptBody ticker now ⟨InfoOutcome.ok b, hist⟩ false =
      Except.ok (some (QuoteResult.failure
        ("Invalid ticker: " ++ ticker ++ " not found or insufficient data") ticker none)) := by
  simp [attemptBody, hprice, hname, hlen]

/-- The resolution loop on a constant thin-blob provider: every non-final
attempt retries, the final attempt returns the insufficient-data failure,
and one query is made per attempt. -/
theorem getStockInfoLoop_thin_blob (ticker now : String) (b : Blob) (hist : HistOutcome)
    (q : ℚ) (maxR : Nat)
    (hlen : b.length ≤ 2)
    (hname : pyTruthyOpt (firstNonNull b name_fields) = false)
    (hprice : resolvePrice b hist = Except.ok (some q)) :
    ∀ (r i : Nat) (le : Option PyExn), i + r = maxR + 1 → 1 ≤ r →
      getStockInfoLoop ticker now maxR (fun _ => ⟨InfoOutcome.ok b, hist⟩) r i le =
        (QuoteResult.failure
          ("Invalid ticker: " ++ ticker ++ " not found or insufficient data") ticker none,
         r) := by
  intro r
  induction r with
  | zero => intro i le hsum hr; omega
  | succ r ih =>
    intro i le hsum hr
    unfold getStockInfoLoop
    dsimp only
    rcases Nat.eq_zero_or_pos r with hr0 | hrpos
    · subst hr0
      have hlast : decide (i < maxR) = false := by
        simp only [decide_eq_false_iff_not]
        omega
      rw [hlast, attemptBody_thin_final ticker now b hist q hlen hname hprice]
    · have hnot : decide (i < maxR) = true := by
        simp only [decide_eq_true_eq]
        omega
      rw [hnot, attemptBody_thin_retry ticker now b hist q hlen hname hprice]
      dsimp only
      rw [ih (i + 1) le (by omega) hrpos]

end ThinBlob

/-- C3 counterexample: a provider that always returns the one-key blob
{ price: 5 } (price present, no company name, at most two keys). The claim
says the final attempt must fail with the step-7 message, but the code
returns the differently-worded insufficient-data message. -/
theorem C3_counterexample :
    (get_stock_info (fun _ => ⟨InfoOutcome.ok [("price", PyVal.pnum 5)], HistOutcome.ok []⟩)
        "T" 2 "ts").1 =
      QuoteResult.failure "Invalid ticker: T not found or insufficient data" "T" none ∧
    "Invalid ticker: T not found or insufficient data" ≠
      "Invalid ticker: No company information or price data found for T" :=
  ⟨by decide, by decide⟩

/-- C3 (amended): when no company name is extracted, a price is extracted
(from an info field or from the one-day history), and the info blob has at
most two keys (empty included), the last attempt of `get_stock_info`
returns a Failure classified as an invalid ticker — never a partial
success — but with the differently-worded message
"Invalid ticker: <ticker> not found or insufficient data" of lines
125-129, not the step-7 message. -/
theorem C3_thin_blob_failure (b : Blob) (hist : HistOutcome) (ticker now : String)
    (maxR : Nat) (q : ℚ)
    (hlen : b.length ≤ 2)
    (hname : pyTruthyOpt (firstNonNull b name_fields) = false)
    (hprice : resolvePrice b hist = Except.ok (some q)) :
    (get_stock_info (fun _ => ⟨InfoOutcome.ok b, hist⟩) ticker maxR now).1 =
      QuoteResult.failure
        ("Invalid ticker: " ++ pyStrip (pyUpper ticker) ++ " not found or insufficient data")
        (pyStrip (pyUpper ticker)) none := by
  unfold get_stock_info
  rw [getStockInfoLoop_thin_blob (pyStrip (pyUpper ticker)) now b hist q maxR
    hlen hname hprice (maxR + 1) 0 none (by omega) (by omega)]

/-- C3 witness: the one-key blob with a field price, and the empty blob
whose price comes from the one-day history. -/
theorem C3_thin_blob_failure_witness :
    (get_stock_info (fun _ => ⟨InfoOutcome.ok [("price", PyVal.pnum 5)], HistOutcome.ok []⟩)
        "msft" 2 "ts").1 =
      QuoteResult.failure
        ("Invalid ticker: " ++ pyStrip (pyUpper "msft") ++ " not found or insufficient data")
        (pyStrip (pyUpper "msft")) none ∧
    (get_stock_info (fun _ => ⟨InfoOutcome.ok [], HistOutcome.ok [4, 7]⟩)
        "T2" 2 "ts").1 =
      QuoteResult.failure
        ("Invalid ticker: " ++ pyStrip (pyUpper "T2") ++ " not found or insufficient data")
        (pyStrip (pyUpper "T2")) none :=
  ⟨C3_thin_blob_failure [("price", PyVal.pnum 5)] (HistOutcome.ok []) "msft" "ts" 2 5
      (by decide) (by decide) (by with_unfolding_all rfl),
   C3_thin_blob_failure [] (HistOutcome.ok [4, 7]) "T2" "ts" 2 7
      (by decide) (by decide) (by with_unfolding_all rfl)⟩

section ValuationShape

/-- Every valuation returned by `calculate_trade_value` carries exactly the
quantities computed at lines 194-229: the exact products, a positive share
count, display strings derived from the exact values, and the max-amount
bookkeeping. -/
theorem calc_valuation_fields (provider : Nat → Attempt) (rate : RateOutcome)
    (ticker sharesStr : String) (maxStr : Option String) (now : String)
    (v : TradeValuation)
    (hv : (calculate_trade_value provider rate ticker sharesStr maxStr now).1 =
      CalcResult.valuation v) :
    v.total_value = v.current_price * (v.shares : ℚ) ∧
    v.current_price_usd = v.current_price * v.exchange_rate ∧
    v.total_value_usd = v.total_value * v.exchange_rate ∧
    1 ≤ v.shares ∧
    v.formatted_total = fmtComma2 v.total_value ++ " " ++ pyStrOf v.currency ∧
    v.formatted_total_usd = "$" ++ fmtComma2 v.total_value_usd ∧
    (∀ mx : ℚ, v.max_trade_amount = some mx →
      v.exceeds_max = some (decide (mx < v.total_value_usd)) ∧
      (mx < v.total_value_usd →
        v.current_price_usd ≠ 0 ∧
        v.max_shares_allowed = some (pyTrunc (mx / v.current_price_usd))) ∧
      (v.total_value_usd ≤ mx → v.max_shares_allowed = none)) ∧
    (v.max_trade_amount = none → v.exceeds_max = none ∧ v.max_shares_allowed = none) := by
  unfold calculate_trade_value at hv
  cases hInt : pyInt sharesStr with
  | none => rw [hInt] at hv; simp at hv
  | some n =>
    rw [hInt] at hv
    dsimp only at hv
    by_cases hn : n ≤ 0
    · rw [if_pos hn] at hv; simp at hv
    · rw [if_neg hn] at hv
      cases hSi : (get_stock_info provider ticker 2 now).1 with
      | failure e2 t2 d2 => rw [hSi] at hv; simp at hv
      | success t2 name2 priceOpt curr2 exch2 lu2 =>
        rw [hSi] at hv
        dsimp only at hv
        cases priceOpt with
        | none => simp at hv
        | some price =>
          dsimp only at hv
          cases maxStr with
          | none =>
            dsimp only at hv
            rw [CalcResult.valuation.injEq] at hv
            subst hv
            refine ⟨rfl, rfl, rfl, by dsimp only; omega, rfl, rfl, ?_, ?_⟩
            · intro mx hmx
              exact Option.noConfusion hmx
            · intro h
              exact ⟨rfl, rfl⟩
          | some ms =>
            dsimp only at hv
            cases hPm : pyFloatParse ms with
            | none => rw [hPm] at hv; simp at hv
            | some mx0 =>
              rw [hPm] at hv
              dsimp only at hv
              by_cases hex :
                  decide (mx0 < price * (n : ℚ) *
                    get_exchange_rate rate curr2 "USD") = true
              · rw [if_pos hex] at hv
                by_cases hz : price * get_exchange_rate rate curr2 "USD" = 0
                · rw [if_pos hz] at hv; simp at hv
                · rw [if_neg hz] at hv
                  rw [CalcResult.valuation.injEq] at hv
                  subst hv
                  rw [decide_eq_true_eq] at hex
                  refine ⟨rfl, rfl, rfl, by dsimp only; omega, rfl, rfl, ?_, ?_⟩
                  · intro mx hmx
                    rw [Option.some.injEq] at hmx
                    subst hmx
                    refine ⟨by simp [hex], fun h => ⟨hz, rfl⟩, fun h => ?_⟩
                    exact absurd h (not_le.mpr hex)
                  · intro h
                    exact Option.noConfusion h
              · rw [if_neg hex] at hv
                rw [CalcResult.valuation.injEq] at hv
                subst hv
                rw [decide_eq_true_eq] at hex
                refine ⟨rfl, rfl, rfl, by dsimp only; omega, rfl, rfl, ?_, ?_⟩
                · intro mx hmx
                  rw [Option.some.injEq] at hmx
                  subst hmx
                  refine ⟨by simp [hex], fun h => absurd h hex, fun h => rfl⟩
                · intro h
                  exact Option.noConfusion h

end ValuationShape

/-- C8: every valuation returned by `calculate_trade_value` satisfies
`total_value = current_price * shares` and
`total_value_usd = total_value * exchange_rate` exactly (the record stores
the exact products; `current_price_usd = current_price * exchange_rate` as
well), and the display strings are derived from those exact values rather
than replacing them. -/
theorem C8_exact_totals (provider : Nat → Attempt) (rate : RateOutcome)
    (ticker sharesStr : String) (maxStr : Option String) (now : String)
    (v : TradeValuation)
    (hv : (calculate_trade_value provider rate ticker sharesStr maxStr now).1 =
      CalcResult.valuation v) :
    v.total_value = v.current_price * (v.shares : ℚ) ∧
    v.total_value_usd = v.total_value * v.exchange_rate ∧
    v.current_price_usd = v.current_price * v.exchange_rate ∧
    1 ≤ v.shares ∧
    v.formatted_total = fmtComma2 v.total_value ++ " " ++ pyStrOf v.currency ∧
    v.formatted_total_usd = "$" ++ fmtComma2 v.total_value_usd := by
  obtain ⟨h1, h2, h3, h4, h5, h6, -, -⟩ :=
    calc_valuation_fields provider rate ticker sharesStr maxStr now v hv
  exact ⟨h1, h3, h2, h4, h5, h6⟩

/-- Provider outcome for the C8 witness: an HKD-denominated quote with the
rate lookup timing out, exercising the fallback rate 0.128. -/
def hkProvider : Nat → Attempt := fun _ =>
  ⟨InfoOutcome.ok [("currentPrice", PyVal.pnum 100), ("longName", PyVal.pstr "HK Co"),
    ("currency", PyVal.pstr "HKD")], HistOutcome.ok []⟩

/-- The valuation computed for 3 shares of the C8 witness quote. -/
def hkValuation : TradeValuation :=
  ⟨"HKCO", PyVal.pstr "HK Co", 100, 12.8, 3, 300, 38.4, PyVal.pstr "HKD", 0.128,
   "100.00 HKD", "$12.80", "300.00 HKD", "$38.40", "ts", none, none, none, none⟩

/-- C8 witness: the HKD valuation satisfies the exact-product invariants. -/
theorem C8_exact_totals_witness :
    hkValuation.total_value = hkValuation.current_price * (hkValuation.shares : ℚ) ∧
    hkValuation.total_value_usd = hkValuation.total_value * hkValuation.exchange_rate :=
  ⟨(C8_exact_totals hkProvider (RateOutcome.exn "timeout") "hkco" "3" none "ts"
      hkValuation (by with_unfolding_all rfl)).1,
   (C8_exact_totals hkProvider (RateOutcome.exn "timeout") "hkco" "3" none "ts"
      hkValuation (by with_unfolding_all rfl)).2.1⟩

/-- C1: for a valuation computed with a supplied max amount (non-negative
limit, the operating domain of the spec, in which Python `int(x)` agrees
with floor), strictly exceeding the limit sets `exceeds_max` to true and
`max_shares_allowed` to ⌊max / priceUsd⌋, which is strictly below the
requested shares; when the USD total equals the limit exactly,
`exceeds_max` is false and `max_shares_allowed` is not produced. -/
theorem C1_max_amount_check (provider : Nat → Attempt) (rate : RateOutcome)
    (ticker sharesStr : String) (maxStr : Option String) (now : String)
    (v : TradeValuation) (mx : ℚ)
    (hv : (calculate_trade_value provider rate ticker sharesStr maxStr now).1 =
      CalcResult.valuation v)
    (hmx : v.max_trade_amount = some mx)
    (hmx0 : 0 ≤ mx) :
    (mx < v.total_value_usd →
      v.exceeds_max = some true ∧
      v.max_shares_allowed = some ⌊mx / v.current_price_usd⌋ ∧
      ⌊mx / v.current_price_usd⌋ < v.shares) ∧
    (v.total_value_usd = mx →
      v.exceeds_max = some false ∧ v.max_shares_allowed = none) := by
  obtain ⟨h1, h2, h3, h4, -, -, hmax, -⟩ :=
    calc_valuation_fields provider rate ticker sharesStr maxStr now v hv
  obtain ⟨hex, hgt, hle⟩ := hmax mx hmx
  have htot : v.total_value_usd = v.current_price_usd * (v.shares : ℚ) := by
    rw [h3, h1, h2]
    ring
  have hs : (0 : ℚ) < (v.shares : ℚ) := by
    exact_mod_cast lt_of_lt_of_le Int.zero_lt_one h4
  constructor
  · intro hlt
    have hpos : 0 < v.current_price_usd := by
      have hprod : 0 < v.current_price_usd * (v.shares : ℚ) := by
        rw [← htot]
        exact lt_of_le_of_lt hmx0 hlt
      rcases mul_pos_iff.mp hprod with ⟨ha, -⟩ | ⟨-, hb⟩
      · exact ha
      · exact absurd hs (not_lt.mpr hb.le)
    refine ⟨?_, ?_, ?_⟩
    · rw [hex]
      simp [hlt]
    · rw [(hgt hlt).2]
      unfold pyTrunc
      rw [if_pos (div_nonneg hmx0 hpos.le)]
    · have hq : mx / v.current_price_usd < (v.shares : ℚ) := by
        rw [div_lt_iff₀ hpos]
        calc mx < v.total_value_usd := hlt
          _ = (v.shares : ℚ) * v.current_price_usd := by rw [htot]; ring
      exact Int.floor_lt.mpr hq
  · intro heq
    refine ⟨?_, hle (le_of_eq heq)⟩
    rw [hex, heq]
    simp

/-- The valuation computed for 10 shares of AAPL at 150 USD against a
1000 USD limit. -/
def appleValuation : TradeValuation :=
  ⟨"AAPL", PyVal.pstr "Apple Inc.", 150, 150, 10, 1500, 1500, PyVal.pstr "USD", 1,
   "150.00 USD", "$150.00", "1,500.00 USD", "$1,500.00", "ts",
   some 1000, some true, some "$1,000.00", some 6⟩

/-- C1 witness: the AAPL scenario of the spec (10 shares at 150 USD versus
a 1000 USD limit: exceeded, with at most 6 affordable shares). -/
theorem C1_max_amount_check_witness :
    appleValuation.exceeds_max = some true ∧
    appleValuation.max_shares_allowed = some ⌊(1000 : ℚ) / appleValuation.current_price_usd⌋ ∧
    ⌊(1000 : ℚ) / appleValuation.current_price_usd⌋ < appleValuation.shares :=
  (C1_max_amount_check
    (fun _ => ⟨InfoOutcome.ok [("currentPrice", PyVal.pnum 150),
      ("longName", PyVal.pstr "Apple Inc."), ("currency", PyVal.pstr "USD")],
      HistOutcome.ok []⟩)
    (RateOutcome.ok 200 (some [])) "AAPL" "10" (some "1000") "ts" appleValuation 1000
    (by with_unfolding_all rfl) (by with_unfolding_all rfl)
    (by norm_num)).1 (by norm_num [appleValuation])
